import Mathlib

/-!
Verification development for the rust-oids core subsystems:
shape generation (src/app/obj.rs), segment charge dynamics
(src/backend/world/segment.rs), the agent body-plan builder
(src/backend/world.rs) and the AI decision system
(src/backend/systems/ai.rs).

Floating point (`f32`) scalars are embedded as real numbers; machine
integers as `Nat`/`Int` (Rust `isize` remainder is `Int.tmod`).  Rust
panics (assertion failures and out-of-bounds indexing) are embedded as
`Option` with `none` for the panicking path.  Shape parameters are
embedded as rationals (they are compared only against literal
constants), coerced to the reals wherever geometry is computed.
-/

namespace RustOids

open Real

noncomputable section

open scoped Classical

/-! ### Planar geometry (src/core/geometry.rs, cgmath operations) -/

/-- Position is a 2-d vector of scalars, cgmath `Vector2<f32>`. -/
abbrev Position := ℝ × ℝ

/-- Squared euclidean magnitude, cgmath `length2`. -/
def length2 (v : Position) : ℝ := v.1 ^ 2 + v.2 ^ 2

/-- Euclidean magnitude, cgmath `length`. -/
def length (v : Position) : ℝ := Real.sqrt (length2 v)

/-- Dot product, cgmath `dot`. -/
def dot (a b : Position) : ℝ := a.1 * b.1 + a.2 * b.2

/-- Perpendicular dot product, cgmath `perp_dot`. -/
def perpDot (a b : Position) : ℝ := a.1 * b.2 - a.2 * b.1

/-- Rotation of a vector by an angle, cgmath `Matrix2::from_angle(theta) * v`. -/
def rot (theta : ℝ) (v : Position) : Position :=
  (Real.cos theta * v.1 - Real.sin theta * v.2,
   Real.sin theta * v.1 + Real.cos theta * v.2)

/-- Four-quadrant arctangent `f32::atan2(y, x)`, embedded via the complex argument. -/
def atan2 (y x : ℝ) : ℝ := Complex.arg (Complex.mk x y)

/-! ### Shape (src/app/obj.rs) -/

/-- Shape variants, from `enum Shape` in src/app/obj.rs: `Ball`, `Box`
and `Star` with the star's radial-function parameters. -/
inductive Shape where
  | Ball (radius : ℚ)
  | Box (width height : ℚ)
  | Star (radius : ℚ) (n : ℕ) (a b c ratio : ℚ)
deriving DecidableEq

/-- Constructor `Shape::new_ball`. -/
def Shape.new_ball (r : ℚ) : Shape := Shape.Ball r

/-- Constructor `Shape::new_box`. -/
def Shape.new_box (w h : ℚ) : Shape := Shape.Box w h

/-- Constructor `Shape::new_star(radius, n)`: asserts `radius > 0` and
`n > 1` (a Rust panic, embedded as `none`), then builds a star with the
fixed curvature constants `a = 0.83255`, `b = 0.14`, `c = 1.`,
`ratio = 0.5`. -/
def Shape.new_star (radius : ℚ) (n : ℕ) : Option Shape :=
  if 0 < radius ∧ 1 < n then
    some (Shape.Star radius n (83255 / 100000) (14 / 100) 1 (1 / 2))
  else
    none

/-- The quantity `xmax` computed in the `Star` arm of `Shape::vertices`. -/
def starXmax (A B : ℝ) : ℝ :=
  Real.sqrt (-Real.log (2 * Real.exp (-A * A) - 1) / (B * B))

/-- The quantity `rmax` (`r0 + ...`) computed in the `Star` arm of
`Shape::vertices`; `r0 = ratio * xmax`. -/
def starRmax (A B C R : ℝ) : ℝ :=
  R * starXmax A B + (1 / C) * Real.sqrt (-Real.log (2 * Real.exp (-A * A) - 1))

/-- The normalized radial value `r` computed by the closure mapped over
`0..2n` in the `Star` arm of `Shape::vertices`, at index i. -/
def starRR (n : ℕ) (A B C R : ℝ) (i : ℕ) : ℝ :=
  let xmax := starXmax A B
  let r0 := R * xmax
  let rmax := starRmax A B C R
  let p := (i : ℝ) * (Real.pi / (n : ℝ))
  let s := Real.sin (p * ((n : ℝ) / 2))
  (r0 +
      (1 / C) *
        Real.sqrt (-Real.log (2 * Real.exp (-A * A) -
          Real.exp (-B * B * xmax * xmax * s * s)))) / rmax

/-- The closure mapped over `0..2n` in the `Star` arm of
`Shape::vertices`: the i-th boundary point of the star, the radial value
applied to the clockwise direction starting from the positive y axis. -/
def starPoint (n : ℕ) (A B C R : ℝ) (i : ℕ) : Position :=
  let p := (i : ℝ) * (Real.pi / (n : ℝ))
  (starRR n A B C R i * Real.sin p, starRR n A B C R i * Real.cos p)

/-- The full vertex list of the `Star` arm of `Shape::vertices`.  The
lobe count `n` is a `u8` in the source and the range bound `2 * n` is
computed in `u8` arithmetic: it wraps modulo 2^8 (release behavior; a
debug build panics on the same inputs, n ≥ 128), so only for n ≤ 127
does the list have `2 * n` points. -/
def starVertices (n : ℕ) (A B C R : ℝ) : List Position :=
  (List.range ((2 * n) % 2 ^ 8)).map (starPoint n A B C R)

/-- Method `Shape::vertices` from src/app/obj.rs: the ordered boundary
points of the shape.  The ball contributes the single point
`(0, radius)`; the box the five points tracing its boundary; the star
the `2n` points of `starVertices`. -/
def Shape.vertices : Shape → List Position
  | Shape.Ball r => [((0 : ℝ), (r : ℝ))]
  | Shape.Box w h =>
      [((0 : ℝ), (h : ℝ) / 2), ((w : ℝ) / 2, (h : ℝ) / 2),
       ((w : ℝ) / 2, -((h : ℝ) / 2)), (-((w : ℝ) / 2), -((h : ℝ) / 2)),
       (-((w : ℝ) / 2), (h : ℝ) / 2)]
  | Shape.Star _ n a b c ratio =>
      starVertices n (a : ℝ) (b : ℝ) (c : ℝ) (ratio : ℝ)

/-! ### Segment charge state (src/backend/world/segment.rs) -/

/-- Per-segment actuation decision, `enum Intent` consumed by the
physics stage.  The AI system (src/backend/systems/ai.rs) constructs
all four variants `Idle`, `Move`, `Brake` and `RunAway`. -/
inductive Intent where
  | Idle
  | Move (f : Position)
  | Brake (f : Position)
  | RunAway (f : Position)

/-- Modelled from the spec: `core::math::Exponential`, the smoothing
filter used by the segment state, is not under src/.  Per section 4.3 it
smooths an internal value toward a target with
`alpha = 1 - e^(-dt/tau)`, `value = target*alpha + value*(1-alpha)`,
and can be reset (bypassing the exponential approach).  The inline
smoothing in the older src/backend/world.rs `State::update` uses the
identical formula. -/
structure Exponential where
  value : ℝ
  dt : ℝ
  tau : ℝ

/-- Replace the filter's time step (Rust `self.smooth.dt(dt)`). -/
def Exponential.withDt (e : Exponential) (dt : ℝ) : Exponential :=
  { e with dt := dt }

/-- Force the filter's internal state (Rust `Exponential::reset`). -/
def Exponential.reset (e : Exponential) (v : ℝ) : Exponential :=
  { e with value := v }

/-- The smoothed value produced by one `smooth(target)` step:
`target * alpha + value * (1 - alpha)` with `alpha = 1 - e^(-dt/tau)`. -/
def Exponential.smoothValue (e : Exponential) (target : ℝ) : ℝ :=
  let alpha := 1 - Real.exp (-e.dt / e.tau)
  target * alpha + e.value * (1 - alpha)

/-- Segment charge state, `struct State` in src/backend/world/segment.rs.
`last_touched` stores the key (identity) of the last agent that touched
the segment (`agent::Key` is not under src/; modelled from the spec as
the toucher's identity). -/
structure SegmentState where
  age_seconds : ℝ
  age_frames : ℕ
  charge : ℝ
  target_charge : ℝ
  recharge : ℝ
  smooth : Exponential
  intent : Intent
  last_touched : Option ℕ

/-- Default segment state (`impl Default for State`): charge 1, target
charge 0, recharge baseline 1, filter `Exponential::new(1., 1., 2.)`. -/
def SegmentState.initial : SegmentState :=
  { age_seconds := 0
    age_frames := 0
    charge := 1
    target_charge := 0
    recharge := 1
    smooth := { value := 1, dt := 1, tau := 2 }
    intent := Intent.Idle
    last_touched := none }

/-- Accessor `State::get_charge`. -/
def SegmentState.get_charge (s : SegmentState) : ℝ := s.charge

/-- Method `State::set_charge`: force-override the charge and reset the
smoothing filter's internal state to it. -/
def SegmentState.set_charge (s : SegmentState) (c : ℝ) : SegmentState :=
  { s with charge := c, smooth := s.smooth.reset c }

/-- Method `State::set_target_charge`. -/
def SegmentState.set_target_charge (s : SegmentState) (t : ℝ) : SegmentState :=
  { s with target_charge := t }

/-- Method `State::with_charge(initial, target, recharge)`. -/
def SegmentState.with_charge (initial target recharge : ℝ) : SegmentState :=
  { SegmentState.initial with
      charge := initial
      target_charge := target
      recharge := recharge
      smooth := { value := initial, dt := 1, tau := 2 } }

/-- Method `State::update(dt)` from src/backend/world/segment.rs:
advance both age counters, smooth the charge toward the target charge
(the filter's mutated internal value becomes the new charge), and, when
the result is within 0.001 of the target, reset the charge to the
recharge baseline via `set_charge`. -/
def SegmentState.update (s : SegmentState) (dt : ℝ) : SegmentState :=
  let sm := s.smooth.withDt dt
  let c := sm.smoothValue s.target_charge
  let s2 : SegmentState :=
    { s with
        age_seconds := s.age_seconds + dt
        age_frames := s.age_frames + 1
        charge := c
        smooth := sm.reset c }
  if |s2.charge - s2.target_charge| < 0.001 then s2.set_charge s2.recharge else s2

/-! ### Segment flags and structure (src/backend/world/segment.rs) -/

/-- Flag bit `SENSOR` of the segment capability bitset. -/
def SENSOR : ℕ := 0x1

/-- Flag bit `JOINT`. -/
def JOINT : ℕ := 0x4

/-- Flag bit `MOUTH`. -/
def MOUTH : ℕ := 0x8

/-- Flag bit `HEAD`. -/
def HEAD : ℕ := 0x10

/-- Flag bit `LEG`. -/
def LEG : ℕ := 0x20

/-- Flag bit `ARM`. -/
def ARM : ℕ := 0x40

/-- Flag bit `TORSO`. -/
def TORSO : ℕ := 0x100

/-- Flag bit `BELLY`. -/
def BELLY : ℕ := 0x200

/-- Flag bit `TAIL`. -/
def TAIL : ℕ := 0x400

/-- Flag bit `LEFT`. -/
def LEFT : ℕ := 0x1000

/-- Flag bit `RIGHT`. -/
def RIGHT : ℕ := 0x2000

/-- Flag bit `MIDDLE`. -/
def MIDDLE : ℕ := 0x4000

/-- Flag bit `THRUSTER`. -/
def THRUSTER : ℕ := 0x10000

/-- Flag bit `RUDDER`. -/
def RUDDER : ℕ := 0x20000

/-- Flag bit `BRAKE`. -/
def BRAKE : ℕ := 0x40000

/-- Composite flag `ACTUATOR = THRUSTER | RUDDER | BRAKE`. -/
def ACTUATOR : ℕ := THRUSTER ||| RUDDER ||| BRAKE

/-- Modelled from the spec: the `CORE` flag referenced by the AI system
(`segment::CORE`) is from a revision of segment.rs not under src/; per
section 4.4 it marks the core/torso segment. -/
def CORE : ℕ := TORSO

/-- Membership test of the bitflags `contains` method:
`self.bits & other.bits == other.bits`. -/
def flagsContains (self other : ℕ) : Bool := self &&& other == other

/-- Winding order applied to a mesh's vertex sequence.  Per section 4.1
of the spec it affects only the rendering-facing normal direction, never
the attachment math. -/
inductive Winding where
  | CW
  | CCW

/-- A shape's vertices plus its winding order (`struct Mesh`). -/
structure Mesh where
  shape : Shape
  winding : Winding
  vertices : List Position

/-- Mesh construction `Mesh::from_shape`: stores the shape, the winding
tag and the shape's vertex list. -/
def Mesh.fromShape (s : Shape) (w : Winding) : Mesh :=
  { shape := s, winding := w, vertices := s.vertices }

/-- Modelled from the spec: the backend `Shape::length()` accessor
(vertex count) is in a backend obj.rs file not under src/; it is the
number of boundary points the shape produces. -/
def shapeLength : Shape → ℕ
  | Shape.Ball _ => 1
  | Shape.Box _ _ => 5
  | Shape.Star _ n _ _ _ _ => 2 * n

/-- Modelled from the spec: the backend `Shape::radius()` accessor
(nominal radius) is in a backend obj.rs file not under src/; per the
spec it is the shape's nominal radius. -/
def radiusOf : Shape → ℚ
  | Shape.Ball r => r
  | Shape.Box w h => max w h / 2
  | Shape.Star r _ _ _ _ _ => r

/-- Back-reference from a child segment to its parent,
`struct Attachment`: the parent's segment index and the index of the
parent vertex the child is anchored to. -/
structure Attachment where
  index : ℕ
  attachment_point : ℕ
deriving DecidableEq

/-- Transform of a segment (src/core/geometry.rs `Transform`). -/
structure Transform where
  position : Position
  angle : ℝ

/-- Rigid-body motion state (src/core/geometry.rs `Motion`). -/
structure Motion where
  velocity : Position
  spin : ℝ

/-- Physical material of a segment (`struct Material`). -/
structure Material where
  density : ℚ
  restitution : ℚ
  friction : ℚ

/-- Appearance of a segment (`struct Livery`, an rgba albedo). -/
structure Livery where
  albedo : ℚ × ℚ × ℚ × ℚ

/-- One rigid body part, `struct Segment` from
src/backend/world/segment.rs. -/
structure Segment where
  transform : Transform
  motion : Option Motion
  index : ℕ
  mesh : Mesh
  material : Material
  livery : Livery
  attached_to : Option Attachment
  state : SegmentState
  flags : ℕ

/-- Method `Segment::new_attachment(attachment_point)`: an attachment to
this segment at the requested vertex, clamped to the last valid vertex
index when the request is at or beyond the vertex count. -/
def Segment.new_attachment (s : Segment) (attachment_point : ℕ) : Option Attachment :=
  let max := s.mesh.vertices.length
  some
    { index := s.index
      attachment_point := if attachment_point < max then attachment_point else max - 1 }

/-! ### Agent and AgentBuilder (src/backend/world.rs) -/

/-- A built agent, `struct Agent` in src/backend/world.rs: an identity
plus the ordered segment list. -/
structure Agent where
  id : ℕ
  segments : List Segment

/-- The body-plan builder, `struct AgentBuilder`. -/
structure Builder where
  id : ℕ
  material : Material
  livery : Livery
  state : SegmentState
  segments : List Segment

/-- Constructor `AgentBuilder::new`: an empty segment list. -/
def Builder.new (id : ℕ) (material : Material) (livery : Livery)
    (state : SegmentState) : Builder :=
  { id := id, material := material, livery := livery, state := state, segments := [] }

/-- Private helper `AgentBuilder::new_segment`: a segment whose stored
index is the builder's current segment count, carrying the builder's
material, livery and charge state.  The revision of world.rs under src/
predates the `motion` field; it is initialized to `None`. -/
def Builder.mkSegment (b : Builder) (shape : Shape) (winding : Winding)
    (position : Position) (angle : ℝ) (attachment : Option Attachment)
    (flags : ℕ) : Segment :=
  { index := b.segments.length
    transform := { position := position, angle := angle }
    motion := none
    mesh := Mesh.fromShape shape winding
    material := b.material
    livery := b.livery
    state := b.state
    attached_to := attachment
    flags := flags }

/-- Method `AgentBuilder::start(position, angle, shape)`: build a root
segment (tagged `TORSO | MIDDLE`, winding CW, no attachment), then clear
the segment list and push it.  Note the source computes the new
segment's index from the list length before clearing. -/
def Builder.start (b : Builder) (position : Position) (angle : ℝ)
    (shape : Shape) : Builder :=
  let segment := b.mkSegment shape Winding.CW position angle none (TORSO ||| MIDDLE)
  { b with segments := [segment] }

/-- Method `AgentBuilder::addw(parent_index, attachment_index_offset,
shape, winding, flags)`: append a child segment attached to the parent's
vertex selected by `(offset + parent_length) % parent_length` (Rust
`isize` remainder, i.e. `Int.tmod`).  Panics — embedded as `none` — when
the parent index is out of bounds, when the parent length is zero
(division by zero), or when the computed index, cast `as usize`, is out
of bounds of the parent's vertex list. -/
def Builder.addw (b : Builder) (parent_index : ℕ) (attachment_index_offset : ℤ)
    (shape : Shape) (winding : Winding) (flags : ℕ) : Option Builder :=
  match b.segments.get? parent_index with
  | none => none
  | some parent =>
      let parent_length : ℤ := (shapeLength parent.mesh.shape : ℤ)
      if parent_length = 0 then none
      else
        let ai : ℤ := (attachment_index_offset + parent_length).tmod parent_length
        if ai < 0 then none
        else
          match parent.mesh.vertices.get? ai.toNat with
          | none => none
          | some v =>
              let p0 := rot parent.transform.angle v
              let angle := atan2 p0.2 p0.1
              let r0 := length p0 * (radiusOf parent.mesh.shape : ℝ)
              let r1 := (radiusOf shape : ℝ)
              let segment := b.mkSegment shape winding
                (parent.transform.position + (r0 + r1) • p0)
                (Real.pi / 2 + angle)
                (parent.new_attachment ai.toNat)
                flags
              some { b with segments := b.segments ++ [segment] }

/-- Method `AgentBuilder::add`: `addw` with CW winding and the `MIDDLE`
flag added. -/
def Builder.add (b : Builder) (parent_index : ℕ) (attachment_index_offset : ℤ)
    (shape : Shape) (flags : ℕ) : Option Builder :=
  b.addw parent_index attachment_index_offset shape Winding.CW (flags ||| MIDDLE)

/-- Method `AgentBuilder::addl`: `addw` with CCW winding and the `LEFT`
flag added. -/
def Builder.addl (b : Builder) (parent_index : ℕ) (attachment_index_offset : ℤ)
    (shape : Shape) (flags : ℕ) : Option Builder :=
  b.addw parent_index attachment_index_offset shape Winding.CCW (flags ||| LEFT)

/-- Method `AgentBuilder::addr`: `addw` with CW winding and the `RIGHT`
flag added. -/
def Builder.addr (b : Builder) (parent_index : ℕ) (attachment_index_offset : ℤ)
    (shape : Shape) (flags : ℕ) : Option Builder :=
  b.addw parent_index attachment_index_offset shape Winding.CW (flags ||| RIGHT)

/-- Method `AgentBuilder::index`: the index of the most recently
appended segment (0 when empty). -/
def Builder.lastIndex (b : Builder) : ℕ :=
  match b.segments.length with
  | 0 => 0
  | n => n - 1

/-- Method `AgentBuilder::build`: finalize the accumulated segments into
an `Agent`. -/
def Builder.build (b : Builder) : Agent :=
  { id := b.id, segments := b.segments }

/-- One builder operation, for quantifying over operation sequences:
`start` or one of the `add` family. -/
inductive Op where
  | start (position : Position) (angle : ℝ) (shape : Shape)
  | add (parent_index : ℕ) (offset : ℤ) (shape : Shape) (flags : ℕ)
  | addl (parent_index : ℕ) (offset : ℤ) (shape : Shape) (flags : ℕ)
  | addr (parent_index : ℕ) (offset : ℤ) (shape : Shape) (flags : ℕ)
  | addw (parent_index : ℕ) (offset : ℤ) (shape : Shape) (winding : Winding) (flags : ℕ)

/-- Whether an operation is a `start`. -/
def Op.isStart : Op → Bool
  | Op.start _ _ _ => true
  | _ => false

/-- Apply one builder operation. -/
def runOp (b : Builder) : Op → Option Builder
  | Op.start p a s => some (b.start p a s)
  | Op.add pi off s f => b.add pi off s f
  | Op.addl pi off s f => b.addl pi off s f
  | Op.addr pi off s f => b.addr pi off s f
  | Op.addw pi off s w f => b.addw pi off s w f

/-- Apply a sequence of builder operations, propagating panics. -/
def runOps (b : Builder) : List Op → Option Builder
  | [] => some b
  | op :: rest => (runOp b op).bind (fun b2 => runOps b2 rest)

/-! ### AI system (src/backend/systems/ai.rs) -/

/-- Modelled from the spec: `agent::AgentType` lives in a
backend/world/agent.rs file not under src/.  The decision logic only
distinguishes the resource type from every other type; the variants
mirror the flock categories of `World` (players, minions, friendly and
enemy fire, enemies, resources, props). -/
inductive AgentType where
  | Player
  | Minion
  | FriendlyFire
  | Enemy
  | EnemyFire
  | Resource
  | Props
deriving DecidableEq

/-- Modelled from the spec: the behavior/personality capability of an
agent (section 6): a response function from 4 features to 4 scalars plus
the named scalar traits. -/
structure Brain where
  response : (Fin 4 → ℝ) → Fin 4 → ℝ
  hunger : ℝ
  haste : ℝ
  prudence : ℝ
  fear : ℝ
  rest : ℝ
  thrust : ℝ

/-- Modelled from the spec: the per-agent targeting state mutated by
`agent.state.retarget` (agent.rs is not under src/): the current target
identity and the last known target position. -/
structure AgentState where
  target : Option ℕ
  target_position : Position

/-- Modelled from the spec: `retarget` stores a new target identity and
target position. -/
def AgentState.retarget (_s : AgentState) (t : Option ℕ) (p : Position) : AgentState :=
  { target := t, target_position := p }

/-- Modelled from the spec: the minion agent as seen by the AI system —
identity, personality, targeting state and segments (agent.rs is not
under src/; the segment list is the world.rs `Agent` payload). -/
structure AiAgent where
  id : ℕ
  brain : Brain
  state : AgentState
  segments : List Segment

/-- The local function `nearest_beacon(beacons, p)` of
`AiSystem::update_minions`: `fold1` over the beacons keeping the
incumbent only when strictly nearer (by squared distance), the point `p`
itself when there are no beacons. -/
def nearestBeacon (beacons : List Position) (p : Position) : Position :=
  match beacons with
  | [] => p
  | b :: rest =>
      rest.foldl (fun n b2 => if length2 (p - n) < length2 (p - b2) then n else b2) b

/-- The radar-range test applied to each snapshot target:
`(position - p0).length() < radar_range`. -/
def inRangeB (p0 : Position) (radar : ℝ) (tp : ℕ × Position) : Bool :=
  decide (length (tp.2 - p0) < radar)

/-- Lookup of a target identity in the snapshot (`targets.get(&id)`;
the hash map is embedded as an association list). -/
def lookupTarget (targets : List (ℕ × Position)) (id : ℕ) : Option Position :=
  (targets.find? (fun tp => tp.1 == id)).map (fun tp => tp.2)

/-- Target resolution of `AiSystem::update_minions` (lines 71-83): with
no current target, take the first snapshot target within radar range of
the sensor; with a current target, retain it only if the snapshot still
contains it; failing both, fall back to the beacon nearest the last
known target position (the position itself when no beacons exist).
Returns the new target identity and target position passed to
`retarget`. -/
def resolveTarget (targets : List (ℕ × Position)) (beacons : List Position)
    (p0 : Position) (radar : ℝ) (current : Option ℕ) (lastPos : Position) :
    Option ℕ × Position :=
  let newTarget : Option (ℕ × Position) :=
    match current with
    | none => targets.find? (inRangeB p0 radar)
    | some id => (lookupTarget targets id).map (fun p => (id, p))
  match newTarget with
  | none => (none, nearestBeacon beacons lastPos)
  | some (id, p) => (some id, p)

/-- The force vector computed for an actuator segment:
`Matrix2::from_angle(angle) * unit_y * power` with
`power = charge * radius^2 * POWER_BOOST` (`POWER_BOOST = 100`). -/
def aiForce (segment : Segment) : Position :=
  (segment.state.get_charge * (radiusOf segment.mesh.shape : ℝ) ^ 2 * 100) •
    rot segment.transform.angle ((0 : ℝ), (1 : ℝ))

/-- The intent cascade of `AiSystem::update_minions` (lines 105-124),
for one actuator segment: a segment touched by a resource is `Idle`, one
touched by anything else runs away (force scaled by the fear trait);
an untouched segment falls through the rudder-left, rudder-right,
thruster and brake threshold checks, defaulting to `Idle`.  `typeOf`
classifies an identity (`refs.id().type_of()`; agent.rs is not under
src/, so the classification is a parameter). -/
def decideIntent (typeOf : ℕ → AgentType) (brain : Brain) (r : Fin 4 → ℝ)
    (flags : ℕ) (touched : Option ℕ) (f : Position) : Intent :=
  match touched with
  | some k =>
      match typeOf k with
      | AgentType.Resource => Intent.Idle
      | _ => Intent.RunAway (brain.fear • f)
  | none =>
      if flagsContains flags (RUDDER ||| LEFT) = true ∧ r 0 > brain.hunger then
        Intent.Move (-f)
      else if flagsContains flags (RUDDER ||| RIGHT) = true ∧ r 1 > brain.hunger then
        Intent.Move (-f)
      else if flagsContains flags THRUSTER = true ∧ r 2 > brain.haste then
        Intent.Move f
      else if flagsContains flags BRAKE = true ∧ r 3 > brain.prudence then
        Intent.Brake (-f)
      else
        Intent.Idle

/-- The per-segment body of the actuator loop of
`AiSystem::update_minions` (lines 100-133): segments without the
`ACTUATOR` flag are untouched; for actuator segments the resolved intent
is stored and the charge state updated (`Idle` targets the rest trait,
`Move`/`Brake` target the thrust trait, `RunAway` force-sets the charge
to the thrust trait). -/
def updateSegmentAI (typeOf : ℕ → AgentType) (brain : Brain) (r : Fin 4 → ℝ)
    (segment : Segment) : Segment :=
  if flagsContains segment.flags ACTUATOR = true then
    let f := aiForce segment
    let intent := decideIntent typeOf brain r segment.flags segment.state.last_touched f
    let st :=
      match intent with
      | Intent.Idle => segment.state.set_target_charge brain.rest
      | Intent.Move _ => segment.state.set_target_charge brain.thrust
      | Intent.Brake _ => segment.state.set_target_charge brain.thrust
      | Intent.RunAway _ => segment.state.set_charge brain.thrust
    { segment with state := { st with intent := intent } }
  else
    segment

/-- One minion's decision pass of `AiSystem::update_minions` (lines
61-135): an agent without a sensor segment is skipped; otherwise the
target is resolved (radar range = sensor shape radius × 10), the
4-feature vector is fed to the personality's response, and every
segment goes through the actuator loop. -/
def updateMinion (typeOf : ℕ → AgentType) (targets : List (ℕ × Position))
    (beacons : List Position) (agent : AiAgent) : AiAgent :=
  match agent.segments.find? (fun s => flagsContains s.flags SENSOR) with
  | none => agent
  | some sensor =>
      let core := agent.segments.find? (fun s => flagsContains s.flags CORE)
      let p0 := sensor.transform.position
      let radar := (radiusOf sensor.mesh.shape : ℝ) * 10
      let resolved := resolveTarget targets beacons p0 radar
        agent.state.target agent.state.target_position
      let st1 := agent.state.retarget resolved.1 resolved.2
      let t0 := st1.target_position - p0
      let t := ((min (length t0) radar) / length t0) • t0
      let s := rot sensor.transform.angle ((0 : ℝ), (-1 : ℝ))
      let neck := Real.pi + sensor.transform.angle -
        (match core with
         | some c => c.transform.angle
         | none => sensor.transform.angle)
      let r := agent.brain.response ![neck, dot t s, perpDot t s, 0]
      { agent with
          state := st1
          segments := agent.segments.map (updateSegmentAI typeOf agent.brain r) }

/-- The six-case per-actuator intent cascade exactly as the spec states
it (section 4.4 and claim C1), for comparison with `decideIntent`: case
1 (run away) applies only when the toucher is a non-resource entity, and
a segment touched by a resource falls through to the threshold checks. -/
def specIntentSixCases (typeOf : ℕ → AgentType) (brain : Brain) (r : Fin 4 → ℝ)
    (flags : ℕ) (touched : Option ℕ) (f : Position) : Intent :=
  if ∃ k, touched = some k ∧ typeOf k ≠ AgentType.Resource then
    Intent.RunAway (brain.fear • f)
  else if flagsContains flags (RUDDER ||| LEFT) = true ∧ r 0 > brain.hunger then
    Intent.Move (-f)
  else if flagsContains flags (RUDDER ||| RIGHT) = true ∧ r 1 > brain.hunger then
    Intent.Move (-f)
  else if flagsContains flags THRUSTER = true ∧ r 2 > brain.haste then
    Intent.Move f
  else if flagsContains flags BRAKE = true ∧ r 3 > brain.prudence then
    Intent.Brake (-f)
  else
    Intent.Idle

/-! ### Concrete sample inputs used to instantiate the theorems -/

/-- The exponential smoothing formula of section 4.3 of the spec:
`target * alpha + charge * (1 - alpha)` with `alpha = 1 - e^(-dt/tau)`. -/
def expSmoothed (charge target dt tau : ℝ) : ℝ :=
  target * (1 - Real.exp (-dt / tau)) + charge * (1 - (1 - Real.exp (-dt / tau)))

/-- A sample personality with zero thresholds and traits. -/
def sampleBrain : Brain :=
  { response := fun _ _ => 0
    hunger := 0
    haste := 0
    prudence := 0
    fear := 0
    rest := 0
    thrust := 0 }

/-- A sample sensor segment (a unit ball at the origin). -/
def sampleSegment : Segment :=
  { transform := { position := ((0 : ℝ), (0 : ℝ)), angle := 0 }
    motion := none
    index := 0
    mesh := Mesh.fromShape (Shape.new_ball 1) Winding.CW
    material := { density := 1, restitution := 1 / 5, friction := 3 / 10 }
    livery := { albedo := (1, 1, 1, 1) }
    attached_to := none
    state := SegmentState.initial
    flags := SENSOR }

/-- A sample actuator segment last touched by agent 3. -/
def sampleActuatorSegment : Segment :=
  { sampleSegment with
      flags := ACTUATOR
      state := { SegmentState.initial with last_touched := some 3 } }

/-- A sample minion agent with a single sensor segment and no target. -/
def sampleAgent : AiAgent :=
  { id := 0
    brain := sampleBrain
    state := { target := none, target_position := ((0 : ℝ), (0 : ℝ)) }
    segments := [sampleSegment] }

/-- A fresh builder as produced by `AgentBuilder::new`. -/
def freshBuilder : Builder :=
  Builder.new 0 { density := 1, restitution := 1 / 5, friction := 3 / 10 }
    { albedo := (1, 1, 1, 1) } SegmentState.initial

/-- The root segment of a builder started with a 2×2 box. -/
def boxRoot : Segment :=
  freshBuilder.mkSegment (Shape.new_box 2 2) Winding.CW ((0 : ℝ), (0 : ℝ)) 0 none
    (TORSO ||| MIDDLE)

/-- A builder started with a 2×2 box root (five parent vertices). -/
def boxBuilder : Builder :=
  freshBuilder.start ((0 : ℝ), (0 : ℝ)) 0 (Shape.new_box 2 2)

/-- The index/attachment invariant of claim C2 over a segment list:
every segment's stored index equals its position, every attachment's
parent index is strictly below the owner's index, and every non-root
segment carries an attachment. -/
def segIndexInv (segs : List Segment) : Prop :=
  ∀ i seg, segs.get? i = some seg →
    seg.index = i ∧
    (∀ a ∈ seg.attached_to, a.index < i) ∧
    (0 < i → seg.attached_to.isSome = true)

/-! ### Theorems -/

/-- C9: constructing a star with fewer than 2 lobes or with non-positive
radius fails immediately at construction time (no shape is returned, the
assertion panics), and for radius > 0 and n ≥ 2 the construction
succeeds. -/
theorem starC9_construction (radius : ℚ) (n : ℕ) :
    (∃ sh, Shape.new_star radius n = some sh) ↔ (0 < radius ∧ 2 ≤ n) := by
  unfold Shape.new_star
  constructor
  · rintro ⟨sh, hsh⟩
    by_cases h : 0 < radius ∧ 1 < n
    · exact ⟨h.1, h.2⟩
    · rw [if_neg h] at hsh
      exact absurd hsh (by simp)
  · rintro ⟨h1, h2⟩
    exact ⟨_, if_pos ⟨h1, h2⟩⟩

/-- C8: every attachment produced by `Segment::new_attachment` has an
attachment point that is a valid index into the parent's vertex list:
requests at or beyond the vertex count are clamped to the last valid
index, requests below it are taken verbatim. -/
theorem segmentC8_attachment_clamped (s : Segment) (pt : ℕ)
    (h : 0 < s.mesh.vertices.length) :
    ∃ a, s.new_attachment pt = some a ∧
      a.index = s.index ∧
      a.attachment_point < s.mesh.vertices.length ∧
      (s.mesh.vertices.length ≤ pt →
        a.attachment_point = s.mesh.vertices.length - 1) ∧
      (pt < s.mesh.vertices.length → a.attachment_point = pt) := by
  refine ⟨⟨s.index, if pt < s.mesh.vertices.length then pt
    else s.mesh.vertices.length - 1⟩, rfl, rfl, ?_, ?_, ?_⟩
  · dsimp only
    split_ifs with h1 <;> omega
  · intro h2
    dsimp only
    rw [if_neg (by omega)]
  · intro h2
    dsimp only
    rw [if_pos h2]

/-- Witness for C8 at a concrete segment (one vertex) and the
out-of-range request 5: the attachment point is clamped to 0. -/
theorem segmentC8_witness :
    ∃ a, sampleSegment.new_attachment 5 = some a ∧
      a.index = sampleSegment.index ∧
      a.attachment_point < sampleSegment.mesh.vertices.length ∧
      (sampleSegment.mesh.vertices.length ≤ 5 →
        a.attachment_point = sampleSegment.mesh.vertices.length - 1) ∧
      (5 < sampleSegment.mesh.vertices.length → a.attachment_point = 5) :=
  segmentC8_attachment_clamped sampleSegment 5
    (by simp [sampleSegment, Mesh.fromShape, Shape.new_ball, Shape.vertices])

/-- Helper: a segment without the `ACTUATOR` flag passes through the
actuator loop unchanged. -/
theorem updateSegmentAI_not_actuator (typeOf : ℕ → AgentType) (brain : Brain)
    (r : Fin 4 → ℝ) (seg : Segment)
    (h : flagsContains seg.flags ACTUATOR = false) :
    updateSegmentAI typeOf brain r seg = seg := by
  unfold updateSegmentAI
  rw [if_neg (by simp [h])]

/-- C10: the AI decision pass mutates only actuator-tagged segments —
any segment of a processed minion that does not carry the `ACTUATOR`
flag is returned unchanged by `updateMinion` (and hence keeps its charge
state, target charge and intent). -/
theorem aiC10_frame (typeOf : ℕ → AgentType) (targets : List (ℕ × Position))
    (beacons : List Position) (agent : AiAgent) (i : ℕ) (seg : Segment)
    (hseg : agent.segments.get? i = some seg)
    (h : flagsContains seg.flags ACTUATOR = false) :
    (updateMinion typeOf targets beacons agent).segments.get? i = some seg := by
  unfold updateMinion
  cases hfind : agent.segments.find? (fun s => flagsContains s.flags SENSOR) with
  | none => exact hseg
  | some sensor =>
      dsimp only
      rw [List.get?_map, hseg, Option.map_some']
      rw [updateSegmentAI_not_actuator _ _ _ _ h]

/-- Witness for C10: a minion whose only segment is a sensor (not an
actuator) keeps that segment unchanged through a decision pass. -/
theorem aiC10_witness :
    (updateMinion (fun _ => AgentType.Minion) [] [] sampleAgent).segments.get? 0 =
      some sampleSegment :=
  aiC10_frame (fun _ => AgentType.Minion) [] [] sampleAgent 0 sampleSegment rfl
    (by decide)

/-- C6: an actuator segment whose `last_touched` is a non-resource
identity resolves to `RunAway` intent (force scaled by the fear trait)
in the decision pass, regardless of the response vector and of the
hunger/haste/prudence thresholds. -/
theorem aiC6_runaway_precedence (typeOf : ℕ → AgentType) (brain : Brain)
    (r : Fin 4 → ℝ) (seg : Segment) (k : ℕ)
    (hact : flagsContains seg.flags ACTUATOR = true)
    (htouch : seg.state.last_touched = some k)
    (htype : typeOf k ≠ AgentType.Resource) :
    (updateSegmentAI typeOf brain r seg).state.intent =
      Intent.RunAway (brain.fear • aiForce seg) := by
  unfold updateSegmentAI
  rw [if_pos hact]
  dsimp only
  have hdec : decideIntent typeOf brain r seg.flags seg.state.last_touched
      (aiForce seg) = Intent.RunAway (brain.fear • aiForce seg) := by
    unfold decideIntent
    rw [htouch]
    cases hT : typeOf k <;> simp_all
  rw [hdec]

/-- Witness for C6: a concrete actuator segment touched by agent 3,
classified as a player, resolves to `RunAway`. -/
theorem aiC6_witness :
    (updateSegmentAI (fun _ => AgentType.Player) sampleBrain (fun _ => 0)
        sampleActuatorSegment).state.intent =
      Intent.RunAway (sampleBrain.fear • aiForce sampleActuatorSegment) :=
  aiC6_runaway_precedence (fun _ => AgentType.Player) sampleBrain (fun _ => 0)
    sampleActuatorSegment 3 (by decide) rfl (by decide)

/-- C3: for every dt > 0, `State::update(dt)` advances both age
counters and sets the charge to `target*alpha + charge*(1-alpha)` with
`alpha = 1 - e^(-dt/tau)`; whenever the smoothed charge lands within
0.001 of the target charge, the charge is instead reset to the recharge
baseline.  The hypothesis that the smoothing filter's internal value
agrees with the charge holds for every reachable state (it is
established by `initial`/`with_charge`/`set_charge` and, as the last
conjunct shows, preserved by `update`). -/
theorem segmentC3_update (s : SegmentState) (dt : ℝ) (hdt : 0 < dt)
    (hinv : s.smooth.value = s.charge) :
    (s.update dt).age_seconds = s.age_seconds + dt ∧
    (s.update dt).age_frames = s.age_frames + 1 ∧
    (|expSmoothed s.charge s.target_charge dt s.smooth.tau - s.target_charge| < 0.001 →
      (s.update dt).charge = s.recharge) ∧
    (¬ |expSmoothed s.charge s.target_charge dt s.smooth.tau - s.target_charge| < 0.001 →
      (s.update dt).charge = expSmoothed s.charge s.target_charge dt s.smooth.tau) ∧
    (s.update dt).smooth.value = (s.update dt).charge := by
  have hc : (s.smooth.withDt dt).smoothValue s.target_charge =
      expSmoothed s.charge s.target_charge dt s.smooth.tau := by
    unfold Exponential.withDt Exponential.smoothValue expSmoothed
    dsimp only
    rw [hinv]
  unfold SegmentState.update
  dsimp only
  rw [hc]
  split_ifs with h
  · exact ⟨rfl, rfl, fun _ => rfl, fun h2 => absurd h h2, rfl⟩
  · exact ⟨rfl, rfl, fun h2 => absurd h2 h, fun _ => rfl, rfl⟩

/-- Witness for C3 at the default state and dt = 1. -/
theorem segmentC3_witness :
    (SegmentState.initial.update 1).age_seconds = SegmentState.initial.age_seconds + 1 ∧
    (SegmentState.initial.update 1).age_frames = SegmentState.initial.age_frames + 1 ∧
    (|expSmoothed SegmentState.initial.charge SegmentState.initial.target_charge 1
          SegmentState.initial.smooth.tau - SegmentState.initial.target_charge| < 0.001 →
      (SegmentState.initial.update 1).charge = SegmentState.initial.recharge) ∧
    (¬ |expSmoothed SegmentState.initial.charge SegmentState.initial.target_charge 1
          SegmentState.initial.smooth.tau - SegmentState.initial.target_charge| < 0.001 →
      (SegmentState.initial.update 1).charge =
        expSmoothed SegmentState.initial.charge SegmentState.initial.target_charge 1
          SegmentState.initial.smooth.tau) ∧
    (SegmentState.initial.update 1).smooth.value = (SegmentState.initial.update 1).charge :=
  segmentC3_update SegmentState.initial 1 (by norm_num) rfl

/-- C1 counterexample: a rudder-left actuator segment last touched by a
resource, with response 0 above the hunger threshold.  The six-case
cascade of the claim predicts `Move` (case 1 does not apply, the toucher
being a resource, so the claim falls through to the rudder-left check),
but the code resolves `Idle`: a segment touched by a resource never
reaches the threshold checks. -/
theorem aiC1_counterexample :
    decideIntent (fun _ => AgentType.Resource) sampleBrain (fun _ => 1)
      (ACTUATOR ||| RUDDER ||| LEFT) (some 0) ((0 : ℝ), (1 : ℝ)) = Intent.Idle ∧
    specIntentSixCases (fun _ => AgentType.Resource) sampleBrain (fun _ => 1)
      (ACTUATOR ||| RUDDER ||| LEFT) (some 0) ((0 : ℝ), (1 : ℝ)) =
      Intent.Move (-((0 : ℝ), (1 : ℝ))) ∧
    Intent.Idle ≠ Intent.Move (-((0 : ℝ), (1 : ℝ))) := by
  refine ⟨by simp [decideIntent], ?_, by simp⟩
  unfold specIntentSixCases
  rw [if_neg (by simp)]
  rw [if_pos ⟨by decide, by norm_num [sampleBrain]⟩]

/-- C1 amended: the per-actuator intent cascade has seven cases in
strict priority order — `RunAway` when last touched by a non-resource
entity; `Idle` when last touched by a resource; otherwise the
rudder-left, rudder-right, thruster and brake threshold checks in order;
else `Idle`. -/
theorem aiC1_intent_cascade (typeOf : ℕ → AgentType) (brain : Brain)
    (r : Fin 4 → ℝ) (flags : ℕ) (touched : Option ℕ) (f : Position) :
    (∀ k, touched = some k → typeOf k ≠ AgentType.Resource →
      decideIntent typeOf brain r flags touched f =
        Intent.RunAway (brain.fear • f)) ∧
    (∀ k, touched = some k → typeOf k = AgentType.Resource →
      decideIntent typeOf brain r flags touched f = Intent.Idle) ∧
    (touched = none →
      flagsContains flags (RUDDER ||| LEFT) = true → r 0 > brain.hunger →
      decideIntent typeOf brain r flags touched f = Intent.Move (-f)) ∧
    (touched = none →
      ¬(flagsContains flags (RUDDER ||| LEFT) = true ∧ r 0 > brain.hunger) →
      flagsContains flags (RUDDER ||| RIGHT) = true → r 1 > brain.hunger →
      decideIntent typeOf brain r flags touched f = Intent.Move (-f)) ∧
    (touched = none →
      ¬(flagsContains flags (RUDDER ||| LEFT) = true ∧ r 0 > brain.hunger) →
      ¬(flagsContains flags (RUDDER ||| RIGHT) = true ∧ r 1 > brain.hunger) →
      flagsContains flags THRUSTER = true → r 2 > brain.haste →
      decideIntent typeOf brain r flags touched f = Intent.Move f) ∧
    (touched = none →
      ¬(flagsContains flags (RUDDER ||| LEFT) = true ∧ r 0 > brain.hunger) →
      ¬(flagsContains flags (RUDDER ||| RIGHT) = true ∧ r 1 > brain.hunger) →
      ¬(flagsContains flags THRUSTER = true ∧ r 2 > brain.haste) →
      flagsContains flags BRAKE = true → r 3 > brain.prudence →
      decideIntent typeOf brain r flags touched f = Intent.Brake (-f)) ∧
    (touched = none →
      ¬(flagsContains flags (RUDDER ||| LEFT) = true ∧ r 0 > brain.hunger) →
      ¬(flagsContains flags (RUDDER ||| RIGHT) = true ∧ r 1 > brain.hunger) →
      ¬(flagsContains flags THRUSTER = true ∧ r 2 > brain.haste) →
      ¬(flagsContains flags BRAKE = true ∧ r 3 > brain.prudence) →
      decideIntent typeOf brain r flags touched f = Intent.Idle) := by
  refine ⟨?_, ?_, ?_, ?_, ?_, ?_, ?_⟩
  · intro k hk hne
    subst hk
    unfold decideIntent
    cases hT : typeOf k <;> simp_all
  · intro k hk he
    subst hk
    unfold decideIntent
    dsimp only
    rw [he]
  · intro ht h1 h2
    subst ht
    unfold decideIntent
    rw [if_pos ⟨h1, h2⟩]
  · intro ht hn1 h1 h2
    subst ht
    unfold decideIntent
    rw [if_neg hn1, if_pos ⟨h1, h2⟩]
  · intro ht hn1 hn2 h1 h2
    subst ht
    unfold decideIntent
    rw [if_neg hn1, if_neg hn2, if_pos ⟨h1, h2⟩]
  · intro ht hn1 hn2 hn3 h1 h2
    subst ht
    unfold decideIntent
    rw [if_neg hn1, if_neg hn2, if_neg hn3, if_pos ⟨h1, h2⟩]
  · intro ht hn1 hn2 hn3 hn4
    subst ht
    unfold decideIntent
    rw [if_neg hn1, if_neg hn2, if_neg hn3, if_neg hn4]

/-- Witness for the amended C1: an untouched rudder-left actuator with
response 0 above the hunger threshold resolves `Move`. -/
theorem aiC1_witness :
    decideIntent (fun _ => AgentType.Minion) sampleBrain (fun _ => 1)
      (ACTUATOR ||| RUDDER ||| LEFT) none ((0 : ℝ), (1 : ℝ)) =
      Intent.Move (-((0 : ℝ), (1 : ℝ))) :=
  (aiC1_intent_cascade (fun _ => AgentType.Minion) sampleBrain (fun _ => 1)
      (ACTUATOR ||| RUDDER ||| LEFT) none ((0 : ℝ), (1 : ℝ))).2.2.1 rfl
    (by decide) (by norm_num [sampleBrain])

/-- Helper: `addw` depends on the attachment offset only through the
truncated remainder `(offset + parent_length).tmod parent_length`. -/
theorem addw_congr_offset (b : Builder) (parent_index : ℕ) (off1 off2 : ℤ)
    (sh : Shape) (w : Winding) (fl : ℕ)
    (h : ∀ parent, b.segments.get? parent_index = some parent →
      (off1 + (shapeLength parent.mesh.shape : ℤ)).tmod (shapeLength parent.mesh.shape : ℤ) =
      (off2 + (shapeLength parent.mesh.shape : ℤ)).tmod (shapeLength parent.mesh.shape : ℤ)) :
    b.addw parent_index off1 sh w fl = b.addw parent_index off2 sh w fl := by
  unfold Builder.addw
  cases hget : b.segments.get? parent_index with
  | none => rfl
  | some parent =>
      dsimp only
      rw [h parent hget]

/-- C7 amended: for every `addw` call whose offset is at least minus the
parent's vertex count, the selected attachment vertex index equals
`(attachment_offset + parent_vertex_count) mod parent_vertex_count`
(mathematical modulus), so negative offsets down to minus the count wrap
backward into range, and requesting offset 0 and offset equal to the
parent's vertex count on the same parent produces the identical result. -/
theorem builderC7_offset_wrap (b : Builder) (parent_index : ℕ) (off : ℤ)
    (sh : Shape) (w : Winding) (fl : ℕ) (parent : Segment)
    (hp : b.segments.get? parent_index = some parent)
    (hlen : 0 < shapeLength parent.mesh.shape)
    (hv : parent.mesh.vertices.length = shapeLength parent.mesh.shape)
    (hoff : -(shapeLength parent.mesh.shape : ℤ) ≤ off) :
    (∃ b2 seg, b.addw parent_index off sh w fl = some b2 ∧
      b2.segments.get? b.segments.length = some seg ∧
      seg.attached_to = some
        { index := parent.index
          attachment_point :=
            ((off + (shapeLength parent.mesh.shape : ℤ)) %
              (shapeLength parent.mesh.shape : ℤ)).toNat }) ∧
    b.addw parent_index 0 sh w fl =
      b.addw parent_index (shapeLength parent.mesh.shape : ℤ) sh w fl := by
  have hLpos : (0 : ℤ) < (shapeLength parent.mesh.shape : ℤ) := by exact_mod_cast hlen
  constructor
  · have hnn : 0 ≤ off + (shapeLength parent.mesh.shape : ℤ) := by omega
    have htm : (off + (shapeLength parent.mesh.shape : ℤ)).tmod
        (shapeLength parent.mesh.shape : ℤ) =
        (off + (shapeLength parent.mesh.shape : ℤ)) % (shapeLength parent.mesh.shape : ℤ) :=
      Int.tmod_eq_emod hnn (le_of_lt hLpos)
    have hai0 : 0 ≤ (off + (shapeLength parent.mesh.shape : ℤ)).tmod
        (shapeLength parent.mesh.shape : ℤ) := by
      rw [htm]
      exact Int.emod_nonneg _ (ne_of_gt hLpos)
    have hailt : (off + (shapeLength parent.mesh.shape : ℤ)).tmod
        (shapeLength parent.mesh.shape : ℤ) < (shapeLength parent.mesh.shape : ℤ) := by
      rw [htm]
      exact Int.emod_lt_of_pos _ hLpos
    have haiN : ((off + (shapeLength parent.mesh.shape : ℤ)).tmod
        (shapeLength parent.mesh.shape : ℤ)).toNat < parent.mesh.vertices.length := by
      rw [hv]
      omega
    have hvget : parent.mesh.vertices.get?
        ((off + (shapeLength parent.mesh.shape : ℤ)).tmod
          (shapeLength parent.mesh.shape : ℤ)).toNat =
        some (parent.mesh.vertices.get ⟨_, haiN⟩) := List.get?_eq_get haiN
    unfold Builder.addw
    rw [hp]
    dsimp only
    rw [if_neg (by omega), if_neg (by omega)]
    rw [hvget]
    dsimp only
    refine ⟨_, _, rfl, List.get?_concat_length _ _, ?_⟩
    unfold Builder.mkSegment Segment.new_attachment
    dsimp only
    rw [if_pos haiN, htm]
  · apply addw_congr_offset
    intro parent2 hp2
    rw [hp] at hp2
    cases hp2
    have h2 : ((shapeLength parent.mesh.shape : ℤ) + (shapeLength parent.mesh.shape : ℤ)) =
        (shapeLength parent.mesh.shape : ℤ) * 2 := by ring
    rw [zero_add, Int.tmod_self, Int.tmod_eq_emod (by omega) (by omega), h2,
      Int.mul_emod_right]

/-- Witness for the amended C7: on a five-vertex box parent, offset -2
wraps backward to vertex (−2+5) mod 5 = 3, and offsets 0 and 5 produce
the identical builder. -/
theorem builderC7_witness :
    (∃ b2 seg, boxBuilder.addw 0 (-2) (Shape.new_ball 1) Winding.CW 0 = some b2 ∧
      b2.segments.get? boxBuilder.segments.length = some seg ∧
      seg.attached_to = some
        { index := boxRoot.index
          attachment_point :=
            (((-2 : ℤ) + (shapeLength boxRoot.mesh.shape : ℤ)) %
              (shapeLength boxRoot.mesh.shape : ℤ)).toNat }) ∧
    boxBuilder.addw 0 0 (Shape.new_ball 1) Winding.CW 0 =
      boxBuilder.addw 0 (shapeLength boxRoot.mesh.shape : ℤ) (Shape.new_ball 1)
        Winding.CW 0 :=
  builderC7_offset_wrap boxBuilder 0 (-2) (Shape.new_ball 1) Winding.CW 0 boxRoot rfl
    (by decide) rfl (by decide)

/-- C7 counterexample: on the same five-vertex box parent, the offset -6
makes the claimed formula give vertex (−6+5) mod 5 = 4, a valid index,
but the Rust truncated remainder is −1, which cast `as usize` indexes
out of bounds: the `addw` call panics instead of wrapping. -/
theorem builderC7_counterexample :
    boxBuilder.addw 0 (-6) (Shape.new_ball 1) Winding.CW 0 = none ∧
    (((-6 : ℤ) + (shapeLength boxRoot.mesh.shape : ℤ)) %
      (shapeLength boxRoot.mesh.shape : ℤ)).toNat = 4 ∧
    4 < boxRoot.mesh.vertices.length :=
  ⟨rfl, by decide, by decide⟩

/-- Helper: `start` on a fresh (empty) builder establishes the
index/attachment invariant. -/
theorem start_fresh_inv (b : Builder) (hb : b.segments = []) (p : Position)
    (ang : ℝ) (sh : Shape) : segIndexInv (b.start p ang sh).segments := by
  intro i seg hi
  unfold Builder.start Builder.mkSegment at hi
  dsimp only at hi
  rw [hb] at hi
  cases i with
  | zero =>
      rw [List.get?_cons_zero] at hi
      cases hi
      exact ⟨rfl, by simp, by omega⟩
  | succ j =>
      rw [List.get?_cons_succ, List.get?_nil] at hi
      cases hi

/-- Helper: `addw` preserves the index/attachment invariant. -/
theorem addw_inv (b : Builder) (parent_index : ℕ) (off : ℤ) (sh : Shape)
    (w : Winding) (fl : ℕ) (b2 : Builder)
    (hinv : segIndexInv b.segments)
    (h : b.addw parent_index off sh w fl = some b2) :
    segIndexInv b2.segments := by
  unfold Builder.addw at h
  cases hget : b.segments.get? parent_index with
  | none => rw [hget] at h; cases h
  | some parent =>
      rw [hget] at h
      dsimp only at h
      split_ifs at h with h1 h2
      cases hvget : parent.mesh.vertices.get?
          ((off + (shapeLength parent.mesh.shape : ℤ)).tmod
            (shapeLength parent.mesh.shape : ℤ)).toNat with
      | none => rw [hvget] at h; cases h
      | some v =>
          rw [hvget] at h
          injection h with h
          subst h
          have hpi : parent_index < b.segments.length := by
            rcases List.get?_eq_some.mp hget with ⟨hlt, _⟩
            exact hlt
          have hpidx : parent.index = parent_index := (hinv parent_index parent hget).1
          intro i seg hi
          dsimp only at hi
          by_cases hcase : i < b.segments.length
          · rw [List.get?_append hcase] at hi
            exact hinv i seg hi
          · have hle : i ≤ b.segments.length := by
              rcases List.get?_eq_some.mp hi with ⟨hlt, _⟩
              simp at hlt
              omega
            have hieq : i = b.segments.length := by omega
            subst hieq
            rw [List.get?_concat_length] at hi
            cases hi
            refine ⟨rfl, ?_, by simp [Builder.mkSegment, Segment.new_attachment]⟩
            intro a ha
            unfold Builder.mkSegment Segment.new_attachment at ha
            dsimp only at ha
            rw [Option.mem_def] at ha
            injection ha with ha
            subst ha
            dsimp only
            omega

/-- Helper: every non-`start` operation preserves the index/attachment
invariant. -/
theorem runOp_nostart_inv (b : Builder) (op : Op) (b2 : Builder)
    (hop : op.isStart = false) (hinv : segIndexInv b.segments)
    (h : runOp b op = some b2) : segIndexInv b2.segments := by
  cases op with
  | start p a s => simp [Op.isStart] at hop
  | add pi off s f => exact addw_inv _ _ _ _ _ _ _ hinv h
  | addl pi off s f => exact addw_inv _ _ _ _ _ _ _ hinv h
  | addr pi off s f => exact addw_inv _ _ _ _ _ _ _ hinv h
  | addw pi off s w f => exact addw_inv _ _ _ _ _ _ _ hinv h

/-- Helper: a run of non-`start` operations preserves the
index/attachment invariant. -/
theorem runOps_nostart_inv (rest : List Op) :
    ∀ b b2 : Builder, (∀ op ∈ rest, op.isStart = false) →
      segIndexInv b.segments → runOps b rest = some b2 →
      segIndexInv b2.segments := by
  induction rest with
  | nil =>
      intro b b2 _ hinv h
      unfold runOps at h
      injection h with h
      subst h
      exact hinv
  | cons op rest ih =>
      intro b b2 hall hinv h
      unfold runOps at h
      cases hop : runOp b op with
      | none => rw [hop] at h; cases h
      | some b1 =>
          rw [hop] at h
          dsimp only [Option.bind] at h
          have hinv1 := runOp_nostart_inv b op b1 (hall op (by simp)) hinv hop
          exact ih b1 b2 (fun o ho => hall o (by simp [ho])) hinv1 h

/-- C2 amended: for any sequence of AgentBuilder operations from a
fresh builder that begins with `start` and contains no further `start`,
every segment of the built Agent has a stored index equal to its
position in the final segment list, and every non-root segment carries
an attachment whose parent index is strictly less than the segment's
own index (acyclic, topologically ordered). -/
theorem builderC2_invariant (b0 : Builder) (p : Position) (ang : ℝ) (sh : Shape)
    (rest : List Op) (b : Builder)
    (hfresh : b0.segments = [])
    (hrest : ∀ op ∈ rest, op.isStart = false)
    (hrun : runOps b0 (Op.start p ang sh :: rest) = some b) :
    segIndexInv b.build.segments := by
  unfold runOps at hrun
  dsimp only [runOp, Option.bind] at hrun
  have h0 : segIndexInv (b0.start p ang sh).segments := start_fresh_inv b0 hfresh p ang sh
  have := runOps_nostart_inv rest (b0.start p ang sh) b hrest h0 hrun
  exact this

/-- Witness for the amended C2: a concrete run (start a ball root, then
attach a child ball to it) satisfies the index/attachment invariant. -/
theorem builderC2_witness :
    ∃ b, runOps freshBuilder
        [Op.start ((0 : ℝ), (0 : ℝ)) 0 (Shape.new_ball 1),
         Op.add 0 0 (Shape.new_ball 1) 0] = some b ∧
      segIndexInv b.build.segments := by
  refine ⟨_, rfl, ?_⟩
  exact builderC2_invariant freshBuilder ((0 : ℝ), (0 : ℝ)) 0 (Shape.new_ball 1)
    [Op.add 0 0 (Shape.new_ball 1) 0] _ rfl
    (by
      intro op hop
      rw [List.mem_singleton] at hop
      subst hop
      rfl)
    rfl

/-- C2 counterexample: the claim as stated also covers a repeated
`start`.  But `start` computes the new root's index from the segment
list length before clearing it, so after the sequence start, start the
single root segment stores index 1 while sitting at position 0. -/
theorem builderC2_counterexample :
    ∃ b seg, runOps freshBuilder
        [Op.start ((0 : ℝ), (0 : ℝ)) 0 (Shape.new_ball 1),
         Op.start ((0 : ℝ), (0 : ℝ)) 0 (Shape.new_ball 1)] = some b ∧
      b.build.segments.get? 0 = some seg ∧
      seg.index = 1 ∧ seg.index ≠ 0 :=
  ⟨_, _, rfl, rfl, rfl, by decide⟩

/-- Helper: invariant of the `nearest_beacon` fold — the result is the
accumulator or one of the folded beacons, and its squared distance to
`p` is at most that of the accumulator and of every folded beacon. -/
theorem nearestBeacon_foldl (p : Position) (l : List Position) :
    ∀ acc : Position,
      (l.foldl (fun n b2 => if length2 (p - n) < length2 (p - b2) then n else b2) acc
          = acc ∨
        l.foldl (fun n b2 => if length2 (p - n) < length2 (p - b2) then n else b2) acc
          ∈ l) ∧
      length2 (p - l.foldl
          (fun n b2 => if length2 (p - n) < length2 (p - b2) then n else b2) acc) ≤
        length2 (p - acc) ∧
      (∀ b ∈ l, length2 (p - l.foldl
          (fun n b2 => if length2 (p - n) < length2 (p - b2) then n else b2) acc) ≤
        length2 (p - b)) := by
  induction l with
  | nil =>
      intro acc
      exact ⟨Or.inl rfl, le_refl _, by simp⟩
  | cons b l ih =>
      intro acc
      rw [List.foldl_cons]
      obtain ⟨hmem, hle, hall⟩ :=
        ih (if length2 (p - acc) < length2 (p - b) then acc else b)
      have hstep_acc : length2 (p -
          (if length2 (p - acc) < length2 (p - b) then acc else b)) ≤
          length2 (p - acc) := by
        split_ifs with hc
        · exact le_refl _
        · exact le_of_not_lt hc
      have hstep_b : length2 (p -
          (if length2 (p - acc) < length2 (p - b) then acc else b)) ≤
          length2 (p - b) := by
        split_ifs with hc
        · exact le_of_lt hc
        · exact le_refl _
      refine ⟨?_, le_trans hle hstep_acc, ?_⟩
      · rcases hmem with hm | hm
        · rw [hm]
          split_ifs with hc
          · exact Or.inl rfl
          · exact Or.inr (List.mem_cons_self _ _)
        · exact Or.inr (List.mem_cons_of_mem _ hm)
      · intro b2 hb2
        rcases List.mem_cons.mp hb2 with hb2 | hb2
        · subst hb2
          exact le_trans hle hstep_b
        · exact hall b2 hb2

/-- C4 amended: target resolution per decision pass.  With no current
target the first snapshot target within radar range is taken (and any
taken target is a snapshot member within range); a current target no
longer in the snapshot is dropped; a retained target keeps its snapshot
position; when no target is found or retained the agent retargets to the
beacon nearest the last known target position — with ties between
equidistant beacons broken in favor of the beacon encountered later in
iteration — falling back to that position itself when no beacons exist;
and the decision pass writes exactly this resolution into the agent's
state, with radar range = sensor shape radius × 10. -/
theorem aiC4_targeting (targets : List (ℕ × Position)) (beacons : List Position)
    (p0 : Position) (radar : ℝ) (lastPos : Position) (typeOf : ℕ → AgentType) :
    (∀ id pos, targets.find? (inRangeB p0 radar) = some (id, pos) →
      resolveTarget targets beacons p0 radar none lastPos = (some id, pos) ∧
      length (pos - p0) < radar ∧ (id, pos) ∈ targets) ∧
    (∀ id, lookupTarget targets id = none →
      resolveTarget targets beacons p0 radar (some id) lastPos =
        (none, nearestBeacon beacons lastPos)) ∧
    (∀ id pos, lookupTarget targets id = some pos →
      resolveTarget targets beacons p0 radar (some id) lastPos = (some id, pos)) ∧
    (targets.find? (inRangeB p0 radar) = none →
      resolveTarget targets beacons p0 radar none lastPos =
        (none, nearestBeacon beacons lastPos)) ∧
    nearestBeacon [] lastPos = lastPos ∧
    (∀ bc ∈ beacons, length2 (lastPos - nearestBeacon beacons lastPos) ≤
      length2 (lastPos - bc)) ∧
    (beacons ≠ [] → nearestBeacon beacons lastPos ∈ beacons) ∧
    (∀ bc, beacons ≠ [] →
      ¬ length2 (lastPos - nearestBeacon beacons lastPos) < length2 (lastPos - bc) →
      nearestBeacon (beacons ++ [bc]) lastPos = bc) ∧
    (∀ agent sensor,
      agent.segments.find? (fun s => flagsContains s.flags SENSOR) = some sensor →
      (updateMinion typeOf targets beacons agent).state =
        { target := (resolveTarget targets beacons sensor.transform.position
            ((radiusOf sensor.mesh.shape : ℝ) * 10) agent.state.target
            agent.state.target_position).1
          target_position := (resolveTarget targets beacons sensor.transform.position
            ((radiusOf sensor.mesh.shape : ℝ) * 10) agent.state.target
            agent.state.target_position).2 }) := by
  refine ⟨?_, ?_, ?_, ?_, rfl, ?_, ?_, ?_, ?_⟩
  · intro id pos h
    refine ⟨?_, ?_, List.mem_of_find?_eq_some h⟩
    · unfold resolveTarget
      rw [h]
    · have := List.find?_some h
      unfold inRangeB at this
      exact of_decide_eq_true this
  · intro id h
    unfold resolveTarget
    dsimp only
    rw [h]
    rfl
  · intro id pos h
    unfold resolveTarget
    dsimp only
    rw [h]
    rfl
  · intro h
    unfold resolveTarget
    dsimp only
    rw [h]
  · intro bc hbc
    cases beacons with
    | nil => cases hbc
    | cons b0 rest =>
        unfold nearestBeacon
        dsimp only
        rcases List.mem_cons.mp hbc with hb | hb
        · subst hb
          exact (nearestBeacon_foldl lastPos rest bc).2.1
        · exact (nearestBeacon_foldl lastPos rest b0).2.2 bc hb
  · intro hne
    cases beacons with
    | nil => exact absurd rfl hne
    | cons b0 rest =>
        unfold nearestBeacon
        dsimp only
        rcases (nearestBeacon_foldl lastPos rest b0).1 with hm | hm
        · rw [hm]
          exact List.mem_cons_self _ _
        · exact List.mem_cons_of_mem _ hm
  · intro bc hne htie
    cases beacons with
    | nil => exact absurd rfl hne
    | cons b0 rest =>
        unfold nearestBeacon at htie ⊢
        dsimp only at htie ⊢
        rw [show (b0 :: rest) ++ [bc] = b0 :: (rest ++ [bc]) from rfl]
        dsimp only
        rw [List.foldl_append, List.foldl_cons, List.foldl_nil, if_neg htie]
  · intro agent sensor hfind
    unfold updateMinion
    rw [hfind]
    rfl

/-- Witness for the amended C4: the spec's scenario — one beacon at the
origin, one active target id 7 at (5,5), a sensor at the origin with
radar range 20 and no current target — resolves to target 7 at (5,5),
which is within range. -/
theorem aiC4_witness :
    resolveTarget [(7, ((5 : ℝ), (5 : ℝ)))] [((0 : ℝ), (0 : ℝ))] ((0 : ℝ), (0 : ℝ)) 20
        none ((0 : ℝ), (0 : ℝ)) = (some 7, ((5 : ℝ), (5 : ℝ))) ∧
    length (((5 : ℝ), (5 : ℝ)) - ((0 : ℝ), (0 : ℝ))) < 20 ∧
    (7, ((5 : ℝ), (5 : ℝ))) ∈ [(7, ((5 : ℝ), (5 : ℝ)))] := by
  have hin : inRangeB ((0 : ℝ), (0 : ℝ)) 20 (7, ((5 : ℝ), (5 : ℝ))) = true := by
    unfold inRangeB
    apply decide_eq_true
    show length (((5 : ℝ), (5 : ℝ)) - ((0 : ℝ), (0 : ℝ))) < 20
    unfold length length2
    rw [show (((5 : ℝ), (5 : ℝ)) - ((0 : ℝ), (0 : ℝ))) = ((5 : ℝ), (5 : ℝ)) by
      rw [Prod.ext_iff]
      constructor <;> simp]
    rw [show ((5 : ℝ), (5 : ℝ)).1 ^ 2 + ((5 : ℝ), (5 : ℝ)).2 ^ 2 = 50 by norm_num]
    exact (Real.sqrt_lt' (by norm_num)).mpr (by norm_num)
  have hfind : List.find? (inRangeB ((0 : ℝ), (0 : ℝ)) 20)
      [(7, ((5 : ℝ), (5 : ℝ)))] = some (7, ((5 : ℝ), (5 : ℝ))) := by
    rw [List.find?_cons_of_pos _ hin]
  exact (aiC4_targeting [(7, ((5 : ℝ), (5 : ℝ)))] [((0 : ℝ), (0 : ℝ))]
    ((0 : ℝ), (0 : ℝ)) 20 ((0 : ℝ), (0 : ℝ)) (fun _ => AgentType.Minion)).1 7
    ((5 : ℝ), (5 : ℝ)) hfind

/-- C4 counterexample: two beacons equidistant from the last known
target position.  The claim says ties are broken by the first beacon
encountered in iteration, but the fold keeps the incumbent only when
strictly nearer, so the tie goes to the later beacon (0,1), not the
first beacon (1,0). -/
theorem aiC4_counterexample :
    nearestBeacon [((1 : ℝ), (0 : ℝ)), ((0 : ℝ), (1 : ℝ))] ((0 : ℝ), (0 : ℝ)) =
      ((0 : ℝ), (1 : ℝ)) ∧
    length2 (((0 : ℝ), (0 : ℝ)) - ((1 : ℝ), (0 : ℝ))) =
      length2 (((0 : ℝ), (0 : ℝ)) - ((0 : ℝ), (1 : ℝ))) ∧
    (((0 : ℝ), (1 : ℝ)) : Position) ≠ ((1 : ℝ), (0 : ℝ)) := by
  refine ⟨?_, by norm_num [length2], by
    intro h
    rw [Prod.ext_iff] at h
    norm_num at h⟩
  unfold nearestBeacon
  dsimp only
  rw [List.foldl_cons, List.foldl_nil]
  rw [if_neg (by norm_num [length2, Prod.fst_sub, Prod.snd_sub])]

/-- Helper: the magnitude of a polar-form point is the absolute radial
value. -/
theorem length_mul_sin_cos (a p : ℝ) :
    length (a * Real.sin p, a * Real.cos p) = |a| := by
  unfold length length2
  dsimp only
  have h : (a * Real.sin p) ^ 2 + (a * Real.cos p) ^ 2 = a ^ 2 := by
    calc (a * Real.sin p) ^ 2 + (a * Real.cos p) ^ 2
        = a ^ 2 * (Real.sin p ^ 2 + Real.cos p ^ 2) := by ring
      _ = a ^ 2 := by rw [Real.sin_sq_add_cos_sq, mul_one]
  rw [h, Real.sqrt_sq_eq_abs]

/-- Helper: the magnitude of the i-th star boundary point is the
absolute radial value. -/
theorem length_starPoint (n : ℕ) (A B C R : ℝ) (i : ℕ) :
    length (starPoint n A B C R i) = |starRR n A B C R i| := by
  unfold starPoint
  exact length_mul_sin_cos _ _

/-- Helper: `xmax` is positive when the star's log argument lies in
(0, 1) and b is positive. -/
theorem starXmax_pos (A B : ℝ)
    (hd0 : 0 < 2 * Real.exp (-A * A) - 1)
    (hd1 : 2 * Real.exp (-A * A) - 1 < 1)
    (hB : 0 < B) : 0 < starXmax A B := by
  have hlog : Real.log (2 * Real.exp (-A * A) - 1) < 0 := Real.log_neg hd0 hd1
  have hL : 0 < -Real.log (2 * Real.exp (-A * A) - 1) := by linarith
  exact Real.sqrt_pos.mpr (div_pos hL (mul_pos hB hB))

/-- Helper: `b*b*xmax*xmax` recovers the star's log bound. -/
theorem starXmax_mul (A B : ℝ)
    (hd0 : 0 < 2 * Real.exp (-A * A) - 1)
    (hd1 : 2 * Real.exp (-A * A) - 1 < 1)
    (hB : 0 < B) :
    B * B * (starXmax A B * starXmax A B) =
      -Real.log (2 * Real.exp (-A * A) - 1) := by
  have hlog : Real.log (2 * Real.exp (-A * A) - 1) < 0 := Real.log_neg hd0 hd1
  have hL : 0 < -Real.log (2 * Real.exp (-A * A) - 1) := by linarith
  unfold starXmax
  rw [Real.mul_self_sqrt (div_nonneg hL.le (mul_pos hB hB).le)]
  field_simp
  ring

/-- Helper: the star's normalization constant `rmax` is positive. -/
theorem starRmax_pos (A B C R : ℝ)
    (hd0 : 0 < 2 * Real.exp (-A * A) - 1)
    (hd1 : 2 * Real.exp (-A * A) - 1 < 1)
    (hB : 0 < B) (hC : 0 < C) (hR : 0 < R) : 0 < starRmax A B C R := by
  have hlog : Real.log (2 * Real.exp (-A * A) - 1) < 0 := Real.log_neg hd0 hd1
  have hL : 0 < -Real.log (2 * Real.exp (-A * A) - 1) := by linarith
  have hx := starXmax_pos A B hd0 hd1 hB
  have h1 : 0 < R * starXmax A B := mul_pos hR hx
  have h2 : 0 < (1 / C) * Real.sqrt (-Real.log (2 * Real.exp (-A * A) - 1)) :=
    mul_pos (one_div_pos.mpr hC) (Real.sqrt_pos.mpr hL)
  unfold starRmax
  linarith

/-- Helper: at even indices the star's radial function attains the
normalization maximum, so the normalized radial value is exactly 1. -/
theorem starRR_even (n : ℕ) (A B C R : ℝ) (i : ℕ)
    (hd0 : 0 < 2 * Real.exp (-A * A) - 1)
    (hd1 : 2 * Real.exp (-A * A) - 1 < 1)
    (hB : 0 < B) (hC : 0 < C) (hR : 0 < R) (hn : 0 < n) (hi : Even i) :
    starRR n A B C R i = 1 := by
  obtain ⟨k, hk⟩ := hi
  have hn0 : (n : ℝ) ≠ 0 := Nat.cast_ne_zero.mpr hn.ne'
  have harg : ((i : ℝ) * (Real.pi / (n : ℝ))) * ((n : ℝ) / 2) =
      (k : ℝ) * Real.pi := by
    subst hk
    push_cast
    field_simp
    ring
  unfold starRR
  dsimp only
  rw [harg, Real.sin_nat_mul_pi]
  rw [show -B * B * starXmax A B * starXmax A B * (0 : ℝ) * 0 = 0 by ring]
  rw [Real.exp_zero]
  rw [show R * starXmax A B +
      1 / C * Real.sqrt (-Real.log (2 * Real.exp (-A * A) - 1)) =
      starRmax A B C R from rfl]
  exact div_self (starRmax_pos A B C R hd0 hd1 hB hC hR).ne'

/-- Helper: at odd indices the inner-notch radial value is
`r0 / rmax`. -/
theorem starRR_odd (n : ℕ) (A B C R : ℝ) (i : ℕ)
    (hd0 : 0 < 2 * Real.exp (-A * A) - 1)
    (hd1 : 2 * Real.exp (-A * A) - 1 < 1)
    (hB : 0 < B) (hC : 0 < C) (hR : 0 < R) (hn : 0 < n) (hi : Odd i) :
    starRR n A B C R i = R * starXmax A B / starRmax A B C R := by
  obtain ⟨k, hk⟩ := hi
  have hn0 : (n : ℝ) ≠ 0 := Nat.cast_ne_zero.mpr hn.ne'
  have harg : ((i : ℝ) * (Real.pi / (n : ℝ))) * ((n : ℝ) / 2) =
      (k : ℝ) * Real.pi + Real.pi / 2 := by
    subst hk
    push_cast
    field_simp
    ring
  unfold starRR
  dsimp only
  rw [harg, Real.sin_add_pi_div_two]
  have hcc : Real.cos ((k : ℝ) * Real.pi) * Real.cos ((k : ℝ) * Real.pi) = 1 := by
    have h := Real.abs_cos_int_mul_pi (k : ℤ)
    push_cast at h
    calc Real.cos ((k : ℝ) * Real.pi) * Real.cos ((k : ℝ) * Real.pi)
        = |Real.cos ((k : ℝ) * Real.pi)| * |Real.cos ((k : ℝ) * Real.pi)| :=
          (abs_mul_abs_self _).symm
      _ = 1 := by rw [h]; norm_num
  have hBx := starXmax_mul A B hd0 hd1 hB
  have harg2 : -B * B * starXmax A B * starXmax A B *
      Real.cos ((k : ℝ) * Real.pi) * Real.cos ((k : ℝ) * Real.pi) =
      Real.log (2 * Real.exp (-A * A) - 1) := by
    calc -B * B * starXmax A B * starXmax A B *
        Real.cos ((k : ℝ) * Real.pi) * Real.cos ((k : ℝ) * Real.pi)
        = -(B * B * (starXmax A B * starXmax A B)) *
            (Real.cos ((k : ℝ) * Real.pi) * Real.cos ((k : ℝ) * Real.pi)) := by ring
      _ = -(-Real.log (2 * Real.exp (-A * A) - 1)) * 1 := by rw [hBx, hcc]
      _ = Real.log (2 * Real.exp (-A * A) - 1) := by ring
  rw [harg2, Real.exp_log hd0]
  rw [show 2 * Real.exp (-A * A) - (2 * Real.exp (-A * A) - 1) = 1 by ring]
  rw [Real.log_one, neg_zero, Real.sqrt_zero, mul_zero, add_zero]

/-- Helper: the normalized radial value always lies in [0, 1]. -/
theorem starRR_bounds (n : ℕ) (A B C R : ℝ) (i : ℕ)
    (hd0 : 0 < 2 * Real.exp (-A * A) - 1)
    (hd1 : 2 * Real.exp (-A * A) - 1 < 1)
    (hB : 0 < B) (hC : 0 < C) (hR : 0 < R) (hn : 0 < n) :
    0 ≤ starRR n A B C R i ∧ starRR n A B C R i ≤ 1 := by
  rcases Nat.even_or_odd i with he | ho
  · rw [starRR_even n A B C R i hd0 hd1 hB hC hR hn he]
    norm_num
  · rw [starRR_odd n A B C R i hd0 hd1 hB hC hR hn ho]
    have hx := starXmax_pos A B hd0 hd1 hB
    have hrm := starRmax_pos A B C R hd0 hd1 hB hC hR
    constructor
    · exact div_nonneg (mul_pos hR hx).le hrm.le
    · rw [div_le_one hrm]
      unfold starRmax
      have h2 : 0 ≤ (1 / C) * Real.sqrt (-Real.log (2 * Real.exp (-A * A) - 1)) :=
        mul_nonneg (one_div_pos.mpr hC).le (Real.sqrt_nonneg _)
      linarith

/-- Helper: for the fixed constant a = 0.83255 of `new_star`, the log
argument 2e^(-a*a) - 1 is positive (because a*a < log 2). -/
theorem starConst_delta_pos :
    0 < 2 * Real.exp (-(83255 / 100000 : ℝ) * (83255 / 100000)) - 1 := by
  have hval : -(83255 / 100000 : ℝ) * (83255 / 100000) =
      -(6931395025 / 10000000000 : ℝ) := by norm_num
  have hlog2 : (6931395025 / 10000000000 : ℝ) < Real.log 2 := by
    have h := Real.log_two_gt_d9
    norm_num at h ⊢
    linarith
  have h2 : Real.exp (-Real.log 2) <
      Real.exp (-(83255 / 100000 : ℝ) * (83255 / 100000)) := by
    apply Real.exp_lt_exp.mpr
    rw [hval]
    linarith
  have h3 : Real.exp (-Real.log 2) = 1 / 2 := by
    rw [Real.exp_neg, Real.exp_log (by norm_num : (0 : ℝ) < 2)]
    norm_num
  linarith

/-- Helper: for the fixed constant a = 0.83255 of `new_star`, the log
argument 2e^(-a*a) - 1 is below 1. -/
theorem starConst_delta_lt_one :
    2 * Real.exp (-(83255 / 100000 : ℝ) * (83255 / 100000)) - 1 < 1 := by
  have h2 : Real.exp (-(83255 / 100000 : ℝ) * (83255 / 100000)) < Real.exp 0 := by
    apply Real.exp_lt_exp.mpr
    norm_num
  rw [Real.exp_zero] at h2
  linarith

/-- C5 amended: for every star shape with 2 ≤ n ≤ 127 lobes (the lobe
count is a `u8` and the point count `2 * n` is computed in `u8`
arithmetic, so for n ≥ 128 the source panics in debug or wraps in
release and never yields 2n points) and positive nominal radius
parameter, `vertices()` returns exactly 2n points, the magnitude of
every point is at most 1, and the maximum magnitude equals 1 exactly —
the vertex list is normalized by the radial function's maximum to unit
nominal radius, independent of the radius parameter. -/
theorem starC5_vertices (radius : ℚ) (n : ℕ) (sh : Shape)
    (hr : 0 < radius) (hn : 2 ≤ n) (hn127 : n ≤ 127)
    (hsh : Shape.new_star radius n = some sh) :
    sh.vertices.length = 2 * n ∧
    (∀ v ∈ sh.vertices, length v ≤ 1) ∧
    (∃ v ∈ sh.vertices, length v = 1) := by
  unfold Shape.new_star at hsh
  rw [if_pos ⟨hr, by omega⟩] at hsh
  injection hsh with hsh
  subst hsh
  have hmod : (2 * n) % 2 ^ 8 = 2 * n := Nat.mod_eq_of_lt (by omega)
  have hA : ((83255 / 100000 : ℚ) : ℝ) = 83255 / 100000 := by norm_num
  have hBq : ((14 / 100 : ℚ) : ℝ) = 14 / 100 := by norm_num
  have hCq : ((1 : ℚ) : ℝ) = 1 := by norm_num
  have hRq : ((1 / 2 : ℚ) : ℝ) = 1 / 2 := by norm_num
  have hd0 := starConst_delta_pos
  have hd1 := starConst_delta_lt_one
  refine ⟨?_, ?_, ?_⟩
  · simp only [Shape.vertices, starVertices, List.length_map, List.length_range]
    omega
  · intro v hv
    simp only [Shape.vertices] at hv
    rw [hA, hBq, hCq, hRq] at hv
    unfold starVertices at hv
    obtain ⟨i, _, rfl⟩ := List.mem_map.mp hv
    rw [length_starPoint]
    have hb := starRR_bounds n (83255 / 100000) (14 / 100) 1 (1 / 2) i hd0 hd1
      (by norm_num) (by norm_num) (by norm_num) (by omega)
    rw [abs_of_nonneg hb.1]
    exact hb.2
  · refine ⟨starPoint n (83255 / 100000) (14 / 100) 1 (1 / 2) 0, ?_, ?_⟩
    · simp only [Shape.vertices]
      rw [hA, hBq, hCq, hRq]
      unfold starVertices
      exact List.mem_map.mpr ⟨0, List.mem_range.mpr (by omega), rfl⟩
    · rw [length_starPoint]
      rw [starRR_even n (83255 / 100000) (14 / 100) 1 (1 / 2) 0 hd0 hd1
        (by norm_num) (by norm_num) (by norm_num) (by omega) even_zero]
      norm_num

/-- Witness for the amended C5 at radius 1, n = 2. -/
theorem starC5_witness :
    (Shape.Star 1 2 (83255 / 100000) (14 / 100) 1 (1 / 2)).vertices.length = 2 * 2 ∧
    (∀ v ∈ (Shape.Star 1 2 (83255 / 100000) (14 / 100) 1 (1 / 2)).vertices,
      length v ≤ 1) ∧
    (∃ v ∈ (Shape.Star 1 2 (83255 / 100000) (14 / 100) 1 (1 / 2)).vertices,
      length v = 1) :=
  starC5_vertices 1 2 (Shape.Star 1 2 (83255 / 100000) (14 / 100) 1 (1 / 2))
    (by norm_num) (by norm_num) (by norm_num) rfl

/-- C5 counterexample: for a star with nominal radius 1/2 and n = 2
lobes, the first vertex has magnitude 1 > 1/2, so it is false that every
vertex magnitude is at most the nominal radius (and the maximum is 1,
not the nominal radius): `vertices()` never scales by the radius
parameter. -/
theorem starC5_counterexample :
    ∃ sh, Shape.new_star (1 / 2) 2 = some sh ∧
      ∃ v ∈ sh.vertices, ¬ length v ≤ ((1 / 2 : ℚ) : ℝ) := by
  refine ⟨Shape.Star (1 / 2) 2 (83255 / 100000) (14 / 100) 1 (1 / 2), ?_, ?_⟩
  · unfold Shape.new_star
    rw [if_pos (by norm_num : (0 : ℚ) < 1 / 2 ∧ 1 < 2)]
  have hA : ((83255 / 100000 : ℚ) : ℝ) = 83255 / 100000 := by norm_num
  have hBq : ((14 / 100 : ℚ) : ℝ) = 14 / 100 := by norm_num
  have hCq : ((1 : ℚ) : ℝ) = 1 := by norm_num
  have hRq : ((1 / 2 : ℚ) : ℝ) = 1 / 2 := by norm_num
  refine ⟨starPoint 2 (83255 / 100000) (14 / 100) 1 (1 / 2) 0, ?_, ?_⟩
  · simp only [Shape.vertices]
    rw [hA, hBq, hCq, hRq]
    unfold starVertices
    exact List.mem_map.mpr ⟨0, List.mem_range.mpr (by omega), rfl⟩
  · rw [length_starPoint]
    rw [starRR_even 2 (83255 / 100000) (14 / 100) 1 (1 / 2) 0 starConst_delta_pos
      starConst_delta_lt_one (by norm_num) (by norm_num) (by norm_num)
      (by omega) even_zero]
    rw [hRq]
    norm_num

end

end RustOids
